import Mathlib

/-!
Shallow embedding of the `alexandria` repository's session pool
(`src/alexandria/pool.py`) and routing-table manager
(`src/alexandria/routing_table_manager.py`), together with the parts of the
data model they read (`src/alexandria/abc.py`).  Modules of the repository
that those two files import but that are not part of the source tree here
(`session.py`, `constants.py`, `exceptions.py`, `routing_table.py`,
`payloads.py`) are modelled from the specification and marked as such in
their doc comments.
-/

namespace Alexandria

/-- A `NodeID` is a 32-byte identifier; modelled as a natural number (equality
and ordering are all the pool and manager use). -/
abbrev NodeID := Nat

/-- An `Endpoint` is a pair of IPv4 address and UDP port (`abc.py`,
`class Endpoint(NamedTuple)`).  The address is modelled as a number. -/
structure Endpoint where
  ip_address : Nat
  port : Nat
deriving DecidableEq, Repr

/-- A `Node` associates a `NodeID` with an `Endpoint` (data model §3; the
`Node` class is constructed as `Node(node_id, endpoint)` in
`routing_table_manager.py`). -/
structure Node where
  node_id : NodeID
  endpoint : Endpoint
deriving DecidableEq, Repr

/-- Modelled from the spec: `exceptions.py` is not under src/.  The error
taxonomy (§7) lists `SessionNotFound` for a pool lookup miss and
`DuplicateSession` when the pool already has an entry. -/
inductive PoolError
  | SessionNotFound
  | DuplicateSession
deriving DecidableEq, Repr

/-- Modelled from the spec: `constants.py` is not under src/.  §4.2 gives the
idle timeout as e.g. 60 s; the exact value is irrelevant to the theorems. -/
def SESSION_IDLE_TIMEOUT : Int := 60

/-- Modelled from the spec: `session.py` is not under src/.  Per §3 a session
carries the remote node descriptor, a role (initiator or recipient), an
internal UUID (`session_id`, modelled as a number) and a last-activity
timestamp — exactly the fields `pool.py` reads (`remote_node_id`,
`session_id`, `last_message_at`) plus the role chosen by
`Pool.create_session`. -/
structure Session where
  remote_node_id : NodeID
  session_id : Nat
  is_initiator : Bool
  last_message_at : Int
deriving DecidableEq, Repr

/-- The pool's `_sessions : Dict[NodeID, SessionAPI]`, modelled as an
association list.  Python dict key uniqueness corresponds to the
well-formedness predicate `Pool.WF` below, established from the empty initial
dict (`self._sessions = {}` in `Pool.__init__`). -/
abbrev Pool := List (NodeID × Session)

/-- `Pool.get_idle_sesssions` (`pool.py` lines 45-50): sessions whose
`last_message_at` is at or before `now - SESSION_IDLE_TIMEOUT`.  The clock
read `time.monotonic()` is passed in as `now`. -/
def Pool.get_idle_sesssions (p : Pool) (now : Int) : List Session :=
  let timed_out_at := now - SESSION_IDLE_TIMEOUT
  (p.map Prod.snd).filter (fun session => session.last_message_at ≤ timed_out_at)

/-- `Pool.remove_session` (`pool.py` lines 52-60): collect every stored
session whose `session_id` matches, pop each one by its `remote_node_id`,
and report whether anything was removed.  A dict `pop` of a key is modelled
as filtering that key out. -/
def Pool.remove_session (p : Pool) (session_id : Nat) : Pool × Bool :=
  let to_remove := (p.map Prod.snd).filter (fun s => s.session_id == session_id)
  (to_remove.foldl (fun acc s => acc.filter (fun e => e.1 != s.remote_node_id)) p,
   !to_remove.isEmpty)

/-- `Pool.has_session` (`pool.py` lines 62-63): membership test on the dict. -/
def Pool.has_session (p : Pool) (remote_node_id : NodeID) : Bool :=
  (p.lookup remote_node_id).isSome

/-- `Pool.get_session` (`pool.py` lines 65-68): raise `SessionNotFound` when
the key is absent, otherwise return the stored session. -/
def Pool.get_session (p : Pool) (remote_node_id : NodeID) : Except PoolError Session :=
  match p.lookup remote_node_id with
  | none => .error .SessionNotFound
  | some session => .ok session

/-- The session object built by `Pool.create_session` (`pool.py` lines
78-94).  `SessionInitiator` and `SessionRecipient` (from `session.py`, not
under src/) are modelled from the spec as one record distinguished by the
`is_initiator` flag; the fresh session UUID and the creation clock drawn
inside the constructors are passed explicitly. -/
def Pool.mkSession (remote_node : Node) (is_initiator : Bool)
    (fresh_sid : Nat) (now : Int) : Session :=
  { remote_node_id := remote_node.node_id
    session_id := fresh_sid
    is_initiator := is_initiator
    last_message_at := now }

/-- `Pool.create_session` (`pool.py` lines 70-98): raise `DuplicateSession`
when a session for `remote_node.node_id` is already present, otherwise build
the session, store it under `remote_node.node_id` and return it. -/
def Pool.create_session (p : Pool) (remote_node : Node) (is_initiator : Bool)
    (fresh_sid : Nat) (now : Int) : Except PoolError (Session × Pool) :=
  if (p.lookup remote_node.node_id).isSome then
    .error .DuplicateSession
  else
    let session := Pool.mkSession remote_node is_initiator fresh_sid now
    .ok (session, p ++ [(remote_node.node_id, session)])

/-- One call against the pool, for stating properties of arbitrary call
sequences.  `create` carries the fresh UUID and clock reading of that call. -/
inductive PoolOp
  | create (remote_node : Node) (is_initiator : Bool) (fresh_sid : Nat) (now : Int)
  | remove (session_id : Nat)
  | get (remote_node_id : NodeID)
  | has (remote_node_id : NodeID)
  | idle (now : Int)
deriving Repr

/-- The pool state after one call.  A failed `create_session` leaves the dict
untouched (the exception is raised before any mutation); `get_session`,
`has_session` and `get_idle_sesssions` are read-only. -/
def Pool.applyOp (p : Pool) : PoolOp → Pool
  | .create n b sid now =>
      match p.create_session n b sid now with
      | .ok r => r.2
      | .error _ => p
  | .remove sid => (p.remove_session sid).1
  | .get _ => p
  | .has _ => p
  | .idle _ => p

/-- The pool state after a sequence of calls, starting from `p`. -/
def Pool.applyOps (p : Pool) (ops : List PoolOp) : Pool :=
  ops.foldl Pool.applyOp p

/-- Well-formedness of the pool's map: keys are unique (a Python dict
guarantee) and every stored session sits under its own `remote_node_id`. -/
def Pool.WF (p : Pool) : Prop :=
  (p.map Prod.fst).Nodup ∧ ∀ e ∈ p, (Prod.snd e).remote_node_id = Prod.fst e

/-- Modelled from the spec: `routing_table.py` is not under src/.  §3: a
bucket holds an ordered sequence of member node ids plus a replacement
cache.  Both lists are kept here most-recent-first — the order
`get_nodes_at_log_distance` returns ("tail-first (most-recent-first)",
§4.5) — so the spec's "tail" (most-recent end) is the head of these
lists. -/
structure Bucket where
  nodes : List NodeID
  replacements : List NodeID
deriving DecidableEq, Repr

/-- Modelled from the spec (§4.5): an array of buckets indexed by
log-distance.  `lru_log_distance` stands for the answer of
`get_least_recently_updated_log_distance` (the recency bookkeeping behind it
lives in the table implementation). -/
structure RoutingTable where
  buckets : List (Nat × Bucket)
  lru_log_distance : Nat
deriving Repr

/-- Modelled from the spec (§4.5): bucket contents at a log-distance,
most-recent-first; an absent bucket is empty. -/
def RoutingTable.get_nodes_at_log_distance (t : RoutingTable) (distance : Nat) :
    List NodeID :=
  match t.buckets.lookup distance with
  | some bucket => bucket.nodes
  | none => []

/-- Modelled from the spec (§4.5): the table is empty when every bucket has
no members (under the table's own invariants a replacement cache is only
populated while its bucket is full, so checking members suffices). -/
def RoutingTable.is_empty (t : RoutingTable) : Bool :=
  t.buckets.all (fun b => b.2.nodes.isEmpty)

/-- Modelled from the spec (§4.5): one bucket's part of `remove(node_id)`:
remove the node id from the members; if it was a member and the replacement
cache holds a candidate, promote the cache's most-recent entry (the head,
lists being most-recent-first) into the bucket at its most-recent end.
§8: when a candidate existed the bucket size is unchanged, so no promotion
happens when the node was not a member. -/
def Bucket.removeNode (b : Bucket) (nid : NodeID) : Bucket :=
  if nid ∈ b.nodes then
    { nodes := b.replacements.take 1 ++ b.nodes.filter (fun x => x != nid)
      replacements := b.replacements.drop 1 }
  else b

/-- Modelled from the spec (§4.5): `remove(node_id)` removes the node id from
its bucket, promoting a replacement candidate if one exists.  The node's
bucket is determined by log-distance in the real table; applying
`Bucket.removeNode` to every bucket is equivalent under the invariant that
a node id appears in at most one bucket (§3), since the other buckets are
left untouched. -/
def RoutingTable.remove (t : RoutingTable) (node_id : NodeID) : RoutingTable :=
  { t with buckets := t.buckets.map (fun b => (b.1, b.2.removeNode node_id)) }

/-- Modelled from the spec: `get_least_recently_updated_log_distance` returns
the log-distance of the least-recently-updated bucket, carried by the model
as the `lru_log_distance` field. -/
def RoutingTable.get_least_recently_updated_log_distance (t : RoutingTable) : Nat :=
  t.lru_log_distance

/-- A node id sits in some replacement cache of the table. -/
def RoutingTable.inReplacementCache (t : RoutingTable) (x : NodeID) : Prop :=
  ∃ b ∈ t.buckets, x ∈ b.2.replacements

/-- The slice of the routing table's global invariant (§3: each node id
appears in at most one bucket and at most one replacement cache, and the
update rules of §4.5 never put a bucket member into a cache) used by the
liveness-ping theorem: no bucket member also sits in a replacement cache. -/
def RoutingTable.WF (t : RoutingTable) : Prop :=
  ∀ b ∈ t.buckets, ∀ x ∈ b.2.nodes, ¬ t.inReplacementCache x

/-- Modelled from the spec: `payloads.py` is not under src/.  §6:
`FindNodes {request_id, distance}`. -/
structure FindNodes where
  request_id : Nat
  distance : Nat
deriving DecidableEq, Repr

/-- Modelled from the spec: §6: `Ping {request_id, enr_seq}`. -/
structure Ping where
  request_id : Nat
  enr_seq : Nat
deriving DecidableEq, Repr

/-- An inbound message as delivered by the dispatcher subscription: the
payload plus the sending node (`request.payload`, `request.node` in
`routing_table_manager.py`). -/
structure InboundMessage (P : Type) where
  payload : P
  node : Node
deriving DecidableEq, Repr

/-- The observable effect of `client.send_found_nodes(request.node,
request_id=..., found_nodes=...)` in `_handle_lookup_requests`. -/
structure SentFoundNodes where
  node : Node
  request_id : Nat
  found_nodes : List Node
deriving DecidableEq, Repr

/-- The observable effect of `client.send_pong(request.node, request_id=...)`
in `_pong_when_pinged`. -/
structure SentPong where
  node : Node
  request_id : Nat
deriving DecidableEq, Repr

/-- `RoutingTableManager._get_nodes_at_distance` (`routing_table_manager.py`
lines 101-108): the bucket's node ids, each paired with its endpoint from
the endpoint database (`endpoint_db.get_endpoint`, modelled as a function). -/
def RoutingTableManager.get_nodes_at_distance (t : RoutingTable)
    (endpoint_db : NodeID → Endpoint) (distance : Nat) : List Node :=
  (t.get_nodes_at_log_distance distance).map
    (fun node_id => Node.mk node_id (endpoint_db node_id))

/-- The body of `RoutingTableManager._handle_lookup_requests`
(`routing_table_manager.py` lines 79-99) for one inbound `FindNodes`
request: distance 0 answers with the local node alone, any other distance
with the bucket at that log-distance; the reply goes to the requester and
echoes the request id. -/
def RoutingTableManager.handle_lookup_request (local_node : Node)
    (t : RoutingTable) (endpoint_db : NodeID → Endpoint)
    (request : InboundMessage FindNodes) : SentFoundNodes :=
  let found_nodes :=
    if request.payload.distance == 0 then [local_node]
    else RoutingTableManager.get_nodes_at_distance t endpoint_db request.payload.distance
  { node := request.node
    request_id := request.payload.request_id
    found_nodes := found_nodes }

/-- The body of `RoutingTableManager._pong_when_pinged`
(`routing_table_manager.py` lines 162-170) for one inbound `Ping`: a single
`Pong` to the pinging node, echoing the request id. -/
def RoutingTableManager.pong_reply (request : InboundMessage Ping) : SentPong :=
  { node := request.node, request_id := request.payload.request_id }

/-- The `_pong_when_pinged` daemon over a stream of inbound pings: one pong
per ping, in order. -/
def RoutingTableManager.pong_when_pinged (requests : List (InboundMessage Ping)) :
    List SentPong :=
  requests.map RoutingTableManager.pong_reply

/-- The `for node_id in reversed(candidates)` loop of
`RoutingTableManager._ping_occasionally` (`routing_table_manager.py` lines
146-160), taking the candidates already in iteration (oldest-first) order.
`pongs node_id` models whether `client.ping` on that node returns before the
`trio.move_on_after(PING_TIMEOUT)` deadline (`PING_TIMEOUT` lives in
`constants.py`, not under src/).  Returns the table after the in-loop
removals, the nodes pinged in order, and the node ids removed in order. -/
def RoutingTableManager.pingLoop (pongs : NodeID → Bool)
    (endpoint_db : NodeID → Endpoint) :
    RoutingTable → List NodeID → RoutingTable × List Node × List NodeID
  | t, [] => (t, [], [])
  | t, node_id :: rest =>
      let node := Node.mk node_id (endpoint_db node_id)
      if pongs node_id then (t, [node], [])
      else
        let r := RoutingTableManager.pingLoop pongs endpoint_db (t.remove node_id) rest
        (r.1, node :: r.2.1, node_id :: r.2.2)

/-- One cycle of `RoutingTableManager._ping_occasionally`
(`routing_table_manager.py` lines 138-160): skip an empty table, otherwise
pick the least-recently-updated log-distance, fetch that bucket
(most-recent-first) and walk it reversed, i.e. oldest to newest. -/
def RoutingTableManager.pingCycle (pongs : NodeID → Bool)
    (endpoint_db : NodeID → Endpoint) (t : RoutingTable) :
    RoutingTable × List Node × List NodeID :=
  if t.is_empty then (t, [], [])
  else
    let log_distance := t.get_least_recently_updated_log_distance
    let candidates := t.get_nodes_at_log_distance log_distance
    RoutingTableManager.pingLoop pongs endpoint_db t candidates.reverse

/-- An observable step of the `_lookup_occasionally` daemon: either the
iterative lookup itself (`network.iterative_lookup(target_node_id)`) or the
verification of one found node (`_verify_node` via `nursery.start_soon`). -/
inductive LookupEffect
  | iterativeLookup (target : NodeID)
  | verifyNode (node : Node)
deriving DecidableEq, Repr

/-- One iteration of `RoutingTableManager._lookup_occasionally`
(`routing_table_manager.py` lines 121-136): skip an empty table, otherwise
look up a random target (`target`, modelling `secrets.randbits(256)`) and
verify every node the lookup returned (`found`, modelling the answer of
`network.iterative_lookup`, which lives outside src/). -/
def RoutingTableManager.lookupIteration (t : RoutingTable) (target : NodeID)
    (found : List Node) : List LookupEffect :=
  if t.is_empty then []
  else .iterativeLookup target :: found.map .verifyNode

/-! Helper lemmas about association-list lookup, shared by the pool
theorems. -/

theorem lookup_eq_none_iff {β : Type} (p : List (NodeID × β)) (k : NodeID) :
    p.lookup k = none ↔ ∀ e ∈ p, e.1 ≠ k := by
  induction p with
  | nil => simp
  | cons e p ih =>
      rcases e with ⟨a, b⟩
      rw [List.lookup_cons]
      by_cases h : k = a
      · subst h
        simp
      · have hbeq : (k == a) = false := beq_false_of_ne h
        simp only [hbeq]
        simp only [ih, List.mem_cons]
        constructor
        · intro hall
          rintro e (rfl | he)
          · exact fun hc => h hc.symm
          · exact hall e he
        · intro hall e he
          exact hall e (Or.inr he)

theorem lookup_append_singleton {β : Type} (p : List (NodeID × β)) (k : NodeID) (v : β)
    (h : p.lookup k = none) : (p ++ [(k, v)]).lookup k = some v := by
  induction p with
  | nil => simp [List.lookup_cons]
  | cons e p ih =>
      rcases e with ⟨a, b⟩
      rw [List.lookup_cons] at h
      rw [List.cons_append, List.lookup_cons]
      by_cases hk : (k == a) = true
      · simp [hk] at h
      · have hk' : (k == a) = false := by simpa using hk
        simp only [hk'] at h ⊢
        exact ih h

theorem foldl_filter_eq_filter_all {α β : Type} (g : α → β → Bool)
    (l : List β) (p : List α) :
    l.foldl (fun acc s => acc.filter (fun e => g e s)) p
      = p.filter (fun e => l.all (fun s => g e s)) := by
  induction l generalizing p with
  | nil => simp
  | cons s l ih =>
      simp only [List.foldl_cons, ih, List.filter_filter, List.all_cons]
      exact List.filter_congr (fun a _ => by simp [Bool.and_comm])

/-! Preservation of the pool's well-formedness. -/

theorem Pool.WF.of_filter {p : Pool} (f : NodeID × Session → Bool)
    (h : Pool.WF p) : Pool.WF (p.filter f) := by
  obtain ⟨hnd, hbind⟩ := h
  refine ⟨?_, ?_⟩
  · exact ((List.filter_sublist p).map Prod.fst).nodup hnd
  · intro e he
    exact hbind e (List.mem_of_mem_filter he)

theorem Pool.WF.of_foldl_remove (l : List Session) {p : Pool} (h : Pool.WF p) :
    Pool.WF (l.foldl (fun acc s => acc.filter (fun e => e.1 != s.remote_node_id)) p) := by
  induction l generalizing p with
  | nil => exact h
  | cons s l ih => exact ih (h.of_filter _)

theorem Pool.WF.applyOp {p : Pool} (h : Pool.WF p) (op : PoolOp) :
    Pool.WF (p.applyOp op) := by
  cases op with
  | create n b sid now =>
      simp only [Pool.applyOp, Pool.create_session]
      by_cases hmem : (p.lookup n.node_id).isSome
      · simp [hmem, h]
      · have hnone : p.lookup n.node_id = none := by
          cases hl : p.lookup n.node_id with
          | none => rfl
          | some s => exact absurd (by simp [hl]) hmem
        have hfresh : ∀ e ∈ p, e.1 ≠ n.node_id := (lookup_eq_none_iff p n.node_id).mp hnone
        simp only [hmem, Bool.false_eq_true, if_false]
        obtain ⟨hnd, hbind⟩ := h
        refine ⟨?_, ?_⟩
        · rw [List.map_append, List.nodup_append]
          refine ⟨hnd, List.nodup_singleton _, ?_⟩
          intro a ha hb
          simp only [List.map_cons, List.map_nil, List.mem_singleton] at hb
          obtain ⟨e, he, rfl⟩ := List.mem_map.mp ha
          exact hfresh e he hb
        · intro e he
          rcases List.mem_append.mp he with he' | he'
          · exact hbind e he'
          · simp only [List.mem_singleton] at he'
            subst he'
            rfl
  | remove sid => exact h.of_foldl_remove _
  | get nid => exact h
  | has nid => exact h
  | idle now => exact h

theorem Pool.WF.applyOps {p : Pool} (h : Pool.WF p) (ops : List PoolOp) :
    Pool.WF (p.applyOps ops) := by
  induction ops generalizing p with
  | nil => exact h
  | cons op ops ih => exact ih (h.applyOp op)

theorem Pool.WF.empty : Pool.WF ([] : Pool) :=
  ⟨List.nodup_nil, by intro e he; cases he⟩

/-! Helper lemmas about the modelled routing table and the ping loop. -/

theorem lookup_map_value {β γ : Type} (g : β → γ) (l : List (Nat × β)) (k : Nat) :
    (l.map (fun b => (b.1, g b.2))).lookup k = (l.lookup k).map g := by
  induction l with
  | nil => rfl
  | cons e l ih =>
      rcases e with ⟨a, b⟩
      rw [List.map_cons, List.lookup_cons, List.lookup_cons]
      cases h : (k == a) <;> simp [h, ih]

theorem lookup_some_mem {β : Type} {l : List (Nat × β)} {k : Nat} {v : β}
    (h : l.lookup k = some v) : (k, v) ∈ l := by
  induction l with
  | nil => cases h
  | cons e l ih =>
      rcases e with ⟨a, b⟩
      rw [List.lookup_cons] at h
      by_cases hk : (k == a) = true
      · have hka : k = a := beq_iff_eq.mp hk
        subst hka
        simp only [hk] at h
        obtain rfl := Option.some.inj h
        exact List.mem_cons_self _ _
      · have hk' : (k == a) = false := by simpa using hk
        simp only [hk'] at h
        exact List.mem_cons_of_mem _ (ih h)

theorem Bucket.mem_removeNode_nodes {b : Bucket} {nid x : NodeID}
    (h : x ∈ (b.removeNode nid).nodes) :
    (x ∈ b.nodes ∧ x ≠ nid) ∨ x ∈ b.replacements := by
  unfold Bucket.removeNode at h
  by_cases hm : nid ∈ b.nodes
  · rw [if_pos hm] at h
    rcases List.mem_append.mp h with htk | hf
    · exact Or.inr (List.Sublist.mem htk (List.take_sublist 1 b.replacements))
    · obtain ⟨hx, hne⟩ := List.mem_filter.mp hf
      exact Or.inl ⟨hx, by simpa using hne⟩
  · rw [if_neg hm] at h
    exact Or.inl ⟨h, fun hxe => hm (hxe ▸ h)⟩

theorem Bucket.mem_removeNode_replacements {b : Bucket} {nid x : NodeID}
    (h : x ∈ (b.removeNode nid).replacements) : x ∈ b.replacements := by
  unfold Bucket.removeNode at h
  by_cases hm : nid ∈ b.nodes
  · rw [if_pos hm] at h
    exact List.Sublist.mem h (List.drop_sublist 1 b.replacements)
  · rw [if_neg hm] at h
    exact h

theorem Bucket.mem_removeNode_of_mem {b : Bucket} {nid x : NodeID}
    (hx : x ∈ b.nodes) (hne : x ≠ nid) : x ∈ (b.removeNode nid).nodes := by
  unfold Bucket.removeNode
  by_cases hm : nid ∈ b.nodes
  · rw [if_pos hm]
    exact List.mem_append_right _ (List.mem_filter.mpr ⟨hx, by simpa using hne⟩)
  · rw [if_neg hm]
    exact hx

theorem remove_buckets_lookup (t : RoutingTable) (nid : NodeID) (d : Nat) :
    (t.remove nid).buckets.lookup d =
      (t.buckets.lookup d).map (fun b => b.removeNode nid) := by
  show (t.buckets.map (fun b => (b.1, b.2.removeNode nid))).lookup d = _
  exact lookup_map_value (fun (b : Bucket) => b.removeNode nid) t.buckets d

theorem mem_remove_get_nodes {t : RoutingTable} {nid x : NodeID} {d : Nat}
    (h : x ∈ (t.remove nid).get_nodes_at_log_distance d) :
    (x ∈ t.get_nodes_at_log_distance d ∧ x ≠ nid) ∨ t.inReplacementCache x := by
  unfold RoutingTable.get_nodes_at_log_distance at h ⊢
  rw [remove_buckets_lookup] at h
  cases hl : t.buckets.lookup d with
  | none =>
      rw [hl] at h
      exact absurd h (List.not_mem_nil x)
  | some b =>
      rw [hl] at h
      rcases Bucket.mem_removeNode_nodes h with ⟨hx, hne⟩ | hc
      · exact Or.inl ⟨hx, hne⟩
      · exact Or.inr ⟨(d, b), lookup_some_mem hl, hc⟩

theorem inReplacementCache_remove {t : RoutingTable} {nid x : NodeID}
    (h : (t.remove nid).inReplacementCache x) : t.inReplacementCache x := by
  obtain ⟨e, he, hx⟩ := h
  obtain ⟨b, hb, rfl⟩ := List.mem_map.mp he
  exact ⟨b, hb, Bucket.mem_removeNode_replacements hx⟩

theorem mem_remove_of_mem {t : RoutingTable} {nid x : NodeID} {d : Nat}
    (hx : x ∈ t.get_nodes_at_log_distance d) (hne : x ≠ nid) :
    x ∈ (t.remove nid).get_nodes_at_log_distance d := by
  unfold RoutingTable.get_nodes_at_log_distance at hx ⊢
  rw [remove_buckets_lookup]
  cases hl : t.buckets.lookup d with
  | none =>
      rw [hl] at hx
      exact absurd hx (List.not_mem_nil x)
  | some b =>
      rw [hl] at hx
      exact Bucket.mem_removeNode_of_mem hx hne

theorem pingLoop_removed (pongs : NodeID → Bool) (db : NodeID → Endpoint)
    (t : RoutingTable) (l : List NodeID) :
    (RoutingTableManager.pingLoop pongs db t l).2.2 =
      l.takeWhile (fun n => !pongs n) := by
  induction l generalizing t with
  | nil => rfl
  | cons n rest ih =>
      by_cases h : pongs n
      · simp [RoutingTableManager.pingLoop, h, List.takeWhile_cons]
      · simp [RoutingTableManager.pingLoop, h, List.takeWhile_cons, ih]

theorem pingLoop_pinged (pongs : NodeID → Bool) (db : NodeID → Endpoint)
    (t : RoutingTable) (l : List NodeID) :
    (RoutingTableManager.pingLoop pongs db t l).2.1 =
      (l.take ((l.takeWhile (fun n => !pongs n)).length + 1)).map
        (fun nid => Node.mk nid (db nid)) := by
  induction l generalizing t with
  | nil => rfl
  | cons n rest ih =>
      by_cases h : pongs n
      · simp [RoutingTableManager.pingLoop, h, List.takeWhile_cons]
      · simp [RoutingTableManager.pingLoop, h, List.takeWhile_cons, ih]

theorem pingLoop_table (pongs : NodeID → Bool) (db : NodeID → Endpoint)
    (t : RoutingTable) (l : List NodeID) :
    (RoutingTableManager.pingLoop pongs db t l).1 =
      (l.takeWhile (fun n => !pongs n)).foldl RoutingTable.remove t := by
  induction l generalizing t with
  | nil => rfl
  | cons n rest ih =>
      by_cases h : pongs n
      · simp [RoutingTableManager.pingLoop, h, List.takeWhile_cons]
      · simp [RoutingTableManager.pingLoop, h, List.takeWhile_cons, ih]

theorem mem_foldl_remove_of_not_removed (rem : List NodeID) {x : NodeID} {d : Nat} :
    ∀ t : RoutingTable, x ∈ t.get_nodes_at_log_distance d → x ∉ rem →
      x ∈ (rem.foldl RoutingTable.remove t).get_nodes_at_log_distance d := by
  induction rem with
  | nil =>
      intro t hx _
      exact hx
  | cons y rest ih =>
      intro t hx hnr
      rw [List.foldl_cons]
      have hne : x ≠ y := fun hxy => hnr (hxy ▸ List.mem_cons_self _ _)
      exact ih (t.remove y) (mem_remove_of_mem hx hne)
        (fun hr => hnr (List.mem_cons_of_mem _ hr))

theorem not_mem_foldl_remove_of_dead (rem : List NodeID) {x : NodeID} :
    ∀ t : RoutingTable, (∀ d, x ∉ t.get_nodes_at_log_distance d) →
      ¬ t.inReplacementCache x →
      (∀ d, x ∉ (rem.foldl RoutingTable.remove t).get_nodes_at_log_distance d) ∧
      ¬ (rem.foldl RoutingTable.remove t).inReplacementCache x := by
  induction rem with
  | nil =>
      intro t h1 h2
      exact ⟨h1, h2⟩
  | cons y rest ih =>
      intro t h1 h2
      simp only [List.foldl_cons]
      refine ih (t.remove y) ?_ ?_
      · intro d hmem
        rcases mem_remove_get_nodes hmem with ⟨hx, _⟩ | hc
        · exact h1 d hx
        · exact h2 hc
      · intro hc
        exact h2 (inReplacementCache_remove hc)

theorem removed_not_mem_foldl_remove (rem : List NodeID) :
    ∀ t : RoutingTable, (∀ x ∈ rem, ¬ t.inReplacementCache x) →
      ∀ x ∈ rem, ∀ d,
        x ∉ (rem.foldl RoutingTable.remove t).get_nodes_at_log_distance d := by
  induction rem with
  | nil =>
      intro t _ x hx
      cases hx
  | cons y rest ih =>
      intro t hdisj x hx d
      simp only [List.foldl_cons]
      rcases List.mem_cons.mp hx with rfl | hxr
      · have hyc : ¬ t.inReplacementCache x := hdisj x (List.mem_cons_self _ _)
        have hdead1 : ∀ d', x ∉ (t.remove x).get_nodes_at_log_distance d' := by
          intro d' hmem
          rcases mem_remove_get_nodes hmem with ⟨_, hne⟩ | hc
          · exact hne rfl
          · exact hyc hc
        have hdead2 : ¬ (t.remove x).inReplacementCache x :=
          fun hc => hyc (inReplacementCache_remove hc)
        exact (not_mem_foldl_remove_of_dead rest (t.remove x) hdead1 hdead2).1 d
      · exact ih (t.remove y)
          (fun z hz hc => hdisj z (List.mem_cons_of_mem _ hz) (inReplacementCache_remove hc))
          x hxr d

/-- Claim C1: if the pool already holds a session for `n.node_id`,
`create_session` fails with `DuplicateSession` and the session map is
unchanged (only the first session remains registered); if no session for
`n.node_id` exists, the call succeeds and registers exactly one new session
under `n.node_id`. -/
theorem create_session_duplicate_or_registers (p : Pool) (n : Node) (b : Bool)
    (sid : Nat) (now : Int) :
    (Pool.has_session p n.node_id = true →
      Pool.create_session p n b sid now = .error .DuplicateSession ∧
      Pool.applyOp p (.create n b sid now) = p) ∧
    (Pool.has_session p n.node_id = false →
      Pool.create_session p n b sid now =
        .ok (Pool.mkSession n b sid now, p ++ [(n.node_id, Pool.mkSession n b sid now)])) := by
  constructor
  · intro h
    have hs : (p.lookup n.node_id).isSome = true := h
    exact ⟨by simp [Pool.create_session, hs], by simp [Pool.applyOp, Pool.create_session, hs]⟩
  · intro h
    have hs : (p.lookup n.node_id).isSome = false := h
    simp [Pool.create_session, hs]

/-- Witness for C1: a pool holding a session for node 5 rejects a second
session for node 5, and the empty pool accepts one. -/
theorem create_session_duplicate_or_registers_witness :
    (Pool.has_session [((5 : NodeID), Pool.mkSession ⟨5, ⟨1, 2⟩⟩ true 9 0)] 5 = true ∧
      Pool.create_session [((5 : NodeID), Pool.mkSession ⟨5, ⟨1, 2⟩⟩ true 9 0)]
        ⟨5, ⟨1, 2⟩⟩ false 10 1 = .error .DuplicateSession) ∧
    (Pool.has_session ([] : Pool) 5 = false ∧
      Pool.create_session ([] : Pool) ⟨5, ⟨1, 2⟩⟩ true 9 0 =
        .ok (Pool.mkSession ⟨5, ⟨1, 2⟩⟩ true 9 0,
             [((5 : NodeID), Pool.mkSession ⟨5, ⟨1, 2⟩⟩ true 9 0)])) :=
  ⟨⟨rfl,
    ((create_session_duplicate_or_registers
        [((5 : NodeID), Pool.mkSession ⟨5, ⟨1, 2⟩⟩ true 9 0)] ⟨5, ⟨1, 2⟩⟩ false 10 1).1
      rfl).1⟩,
   ⟨rfl,
    (create_session_duplicate_or_registers ([] : Pool) ⟨5, ⟨1, 2⟩⟩ true 9 0).2 rfl⟩⟩

/-- Claim C2: `get_session` returns the stored session when one exists for
the node id, fails with `SessionNotFound` when none exists, and never
changes the session map. -/
theorem get_session_hit_or_missing (p : Pool) (nid : NodeID) :
    (∀ s, p.lookup nid = some s → Pool.get_session p nid = .ok s) ∧
    (p.lookup nid = none → Pool.get_session p nid = .error .SessionNotFound) ∧
    Pool.applyOp p (.get nid) = p := by
  refine ⟨?_, ?_, rfl⟩
  · intro s h
    simp [Pool.get_session, h]
  · intro h
    simp [Pool.get_session, h]

/-- Witness for C2: a hit on node 5 in a one-entry pool and a miss on the
empty pool. -/
theorem get_session_hit_or_missing_witness :
    (Pool.get_session [((5 : NodeID), Pool.mkSession ⟨5, ⟨1, 2⟩⟩ true 9 0)] 5 =
      .ok (Pool.mkSession ⟨5, ⟨1, 2⟩⟩ true 9 0)) ∧
    Pool.get_session ([] : Pool) 5 = .error .SessionNotFound :=
  ⟨(get_session_hit_or_missing
      [((5 : NodeID), Pool.mkSession ⟨5, ⟨1, 2⟩⟩ true 9 0)] 5).1
      (Pool.mkSession ⟨5, ⟨1, 2⟩⟩ true 9 0) rfl,
   (get_session_hit_or_missing ([] : Pool) 5).2.1 rfl⟩

/-- Claim C3: on a well-formed pool, `remove_session u` removes exactly the
stored sessions whose internal `session_id` equals `u`; when no stored
session matches it raises no error, leaves the map unchanged and returns
`false`. -/
theorem remove_session_filters_by_uuid (p : Pool) (sid : Nat) (hwf : Pool.WF p) :
    (Pool.remove_session p sid).1 = p.filter (fun e => e.2.session_id != sid) ∧
    ((∀ e ∈ p, e.2.session_id ≠ sid) →
      (Pool.remove_session p sid).1 = p ∧ (Pool.remove_session p sid).2 = false) := by
  obtain ⟨hnd, hbind⟩ := hwf
  have hmain : (Pool.remove_session p sid).1 = p.filter (fun e => e.2.session_id != sid) := by
    show ((p.map Prod.snd).filter (fun s => s.session_id == sid)).foldl
        (fun acc s => acc.filter (fun e => e.1 != s.remote_node_id)) p = _
    rw [foldl_filter_eq_filter_all]
    apply List.filter_congr
    intro e he
    by_cases hs : e.2.session_id = sid
    · have hR : (e.2.session_id != sid) = false := by simp [hs]
      have hmem : e.2 ∈ (p.map Prod.snd).filter (fun s => s.session_id == sid) :=
        List.mem_filter.mpr ⟨List.mem_map.mpr ⟨e, he, rfl⟩, by simp [hs]⟩
      have hL : ((p.map Prod.snd).filter (fun s => s.session_id == sid)).all
          (fun s => e.1 != s.remote_node_id) = false :=
        List.all_eq_false.mpr ⟨e.2, hmem, by simp [hbind e he]⟩
      rw [hL, hR]
    · have hR : (e.2.session_id != sid) = true := bne_iff_ne.mpr hs
      have hL : ((p.map Prod.snd).filter (fun s => s.session_id == sid)).all
          (fun s => e.1 != s.remote_node_id) = true := by
        rw [List.all_eq_true]
        intro s hsmem
        obtain ⟨hsmem', hsid⟩ := List.mem_filter.mp hsmem
        obtain ⟨e', he', rfl⟩ := List.mem_map.mp hsmem'
        rw [bne_iff_ne]
        intro heq
        rw [hbind e' he'] at heq
        have hee : e = e' := List.inj_on_of_nodup_map hnd he he' heq
        rw [← hee] at hsid
        exact hs (by simpa using hsid)
      rw [hL, hR]
  refine ⟨hmain, ?_⟩
  intro hnone
  constructor
  · rw [hmain, List.filter_eq_self]
    intro e he
    exact bne_iff_ne.mpr (hnone e he)
  · show (!((p.map Prod.snd).filter (fun s => s.session_id == sid)).isEmpty) = false
    have hto : (p.map Prod.snd).filter (fun s => s.session_id == sid) = [] := by
      rw [List.filter_eq_nil_iff]
      intro s hsm
      obtain ⟨e, he, rfl⟩ := List.mem_map.mp hsm
      simpa using hnone e he
    rw [hto]
    rfl

/-- Witness for C3: removing UUID 9 from a well-formed two-session pool
deletes exactly the session whose `session_id` is 9. -/
theorem remove_session_filters_by_uuid_witness :
    Pool.WF [((5 : NodeID), Pool.mkSession ⟨5, ⟨1, 2⟩⟩ true 9 0),
             ((7 : NodeID), Pool.mkSession ⟨7, ⟨1, 3⟩⟩ false 11 0)] ∧
    (Pool.remove_session [((5 : NodeID), Pool.mkSession ⟨5, ⟨1, 2⟩⟩ true 9 0),
             ((7 : NodeID), Pool.mkSession ⟨7, ⟨1, 3⟩⟩ false 11 0)] 9).1 =
      [((7 : NodeID), Pool.mkSession ⟨7, ⟨1, 3⟩⟩ false 11 0)] := by
  have hwf : Pool.WF [((5 : NodeID), Pool.mkSession ⟨5, ⟨1, 2⟩⟩ true 9 0),
      ((7 : NodeID), Pool.mkSession ⟨7, ⟨1, 3⟩⟩ false 11 0)] := ⟨by decide, by decide⟩
  exact ⟨hwf,
    (remove_session_filters_by_uuid
      [((5 : NodeID), Pool.mkSession ⟨5, ⟨1, 2⟩⟩ true 9 0),
       ((7 : NodeID), Pool.mkSession ⟨7, ⟨1, 3⟩⟩ false 11 0)] 9 hwf).1⟩

/-- Claim C4 as stated is false: it asks for exactly the sessions whose
`last_message_at` is strictly earlier than `now - SESSION_IDLE_TIMEOUT`,
but `get_idle_sesssions` uses `<=`, so a session lying exactly on the
threshold instant is returned as idle. -/
theorem get_idle_sesssions_strict_counterexample :
    ¬ (∀ (p : Pool) (now : Int) (s : Session),
        s ∈ Pool.get_idle_sesssions p now ↔
          s ∈ p.map Prod.snd ∧ s.last_message_at < now - SESSION_IDLE_TIMEOUT) := by
  intro h
  have hmem : (⟨1, 9, true, -60⟩ : Session) ∈
      Pool.get_idle_sesssions [((1 : NodeID), ⟨1, 9, true, -60⟩)] 0 := by decide
  have hlt :=
    ((h [((1 : NodeID), ⟨1, 9, true, -60⟩)] 0 ⟨1, 9, true, -60⟩).mp hmem).2
  exact absurd hlt (by decide)

/-- Claim C4 (amended): `get_idle_sesssions` returns exactly the stored
sessions whose `last_message_at` is at or before `now - SESSION_IDLE_TIMEOUT`,
and no session whose last message is more recent than that instant. -/
theorem get_idle_sesssions_threshold (p : Pool) (now : Int) (s : Session) :
    s ∈ Pool.get_idle_sesssions p now ↔
      s ∈ p.map Prod.snd ∧ s.last_message_at ≤ now - SESSION_IDLE_TIMEOUT := by
  simp [Pool.get_idle_sesssions, List.mem_filter]

/-- Claim C8: starting from the empty session map, any sequence of pool calls
leaves at most one session per remote node id (keys are nodup) and stores
every session under its own `remote_node_id`. -/
theorem pool_one_session_per_node (ops : List PoolOp) :
    ((Pool.applyOps [] ops).map Prod.fst).Nodup ∧
      ∀ e ∈ Pool.applyOps [] ops, (Prod.snd e).remote_node_id = Prod.fst e :=
  Pool.WF.empty.applyOps ops

/-- Claim C9: after a successful `create_session`, `has_session` is true for
the node, `get_session` returns the very session `create_session` returned,
and that session's role matches the `is_initiator` argument. -/
theorem create_session_get_session_round_trip (p : Pool) (n : Node) (b : Bool)
    (sid : Nat) (now : Int) (h : Pool.has_session p n.node_id = false) :
    Pool.create_session p n b sid now =
      .ok (Pool.mkSession n b sid now, Pool.applyOp p (.create n b sid now)) ∧
    Pool.has_session (Pool.applyOp p (.create n b sid now)) n.node_id = true ∧
    Pool.get_session (Pool.applyOp p (.create n b sid now)) n.node_id =
      .ok (Pool.mkSession n b sid now) ∧
    (Pool.mkSession n b sid now).is_initiator = b := by
  have hs : (p.lookup n.node_id).isSome = false := h
  have hnone : p.lookup n.node_id = none := by
    cases hl : p.lookup n.node_id with
    | none => rfl
    | some v => rw [hl] at hs; cases hs
  have happly : Pool.applyOp p (.create n b sid now) =
      p ++ [(n.node_id, Pool.mkSession n b sid now)] := by
    simp [Pool.applyOp, Pool.create_session, hs]
  have hlook : (Pool.applyOp p (.create n b sid now)).lookup n.node_id =
      some (Pool.mkSession n b sid now) := by
    rw [happly]
    exact lookup_append_singleton p _ _ hnone
  refine ⟨?_, ?_, ?_, rfl⟩
  · rw [happly]
    simp [Pool.create_session, hs]
  · show ((Pool.applyOp p (.create n b sid now)).lookup n.node_id).isSome = true
    rw [hlook]
    rfl
  · simp [Pool.get_session, hlook]

/-- Witness for C9: creating an initiator session for node 5 in the empty
pool and reading it back. -/
theorem create_session_get_session_round_trip_witness :
    Pool.has_session ([] : Pool) 5 = false ∧
    Pool.get_session (Pool.applyOp ([] : Pool) (.create ⟨5, ⟨1, 2⟩⟩ true 9 0)) 5 =
      .ok (Pool.mkSession ⟨5, ⟨1, 2⟩⟩ true 9 0) ∧
    (Pool.mkSession ⟨5, ⟨1, 2⟩⟩ true 9 0).is_initiator = true :=
  ⟨rfl,
   (create_session_get_session_round_trip ([] : Pool) ⟨5, ⟨1, 2⟩⟩ true 9 0 rfl).2.2.1,
   (create_session_get_session_round_trip ([] : Pool) ⟨5, ⟨1, 2⟩⟩ true 9 0 rfl).2.2.2⟩

/-- Claim C5: one cycle of the liveness-ping daemon on a non-empty,
well-formed routing table walks the least-recently-updated bucket oldest to
newest: it removes exactly the members before the first responsive one,
pings exactly those members plus the first responder (nothing newer), every
removed member is gone from every bucket afterwards (replacement promotion
cannot resurrect one, since bucket members never sit in a cache), every
member not removed is still in its bucket, and the whole bucket is removed
when no member responds. -/
theorem ping_cycle_evicts_unresponsive (pongs : NodeID → Bool)
    (db : NodeID → Endpoint) (t : RoutingTable) (h : t.is_empty = false)
    (hwf : t.WF) :
    (RoutingTableManager.pingCycle pongs db t).2.2 =
      ((t.get_nodes_at_log_distance
          t.get_least_recently_updated_log_distance).reverse).takeWhile
        (fun n => !pongs n) ∧
    (RoutingTableManager.pingCycle pongs db t).2.1 =
      (((t.get_nodes_at_log_distance
          t.get_least_recently_updated_log_distance).reverse).take
        ((RoutingTableManager.pingCycle pongs db t).2.2.length + 1)).map
        (fun nid => Node.mk nid (db nid)) ∧
    (∀ x ∈ (RoutingTableManager.pingCycle pongs db t).2.2, ∀ d,
      x ∉ (RoutingTableManager.pingCycle pongs db t).1.get_nodes_at_log_distance d) ∧
    (∀ d x, x ∈ t.get_nodes_at_log_distance d →
      x ∉ (RoutingTableManager.pingCycle pongs db t).2.2 →
      x ∈ (RoutingTableManager.pingCycle pongs db t).1.get_nodes_at_log_distance d) ∧
    ((∀ n ∈ t.get_nodes_at_log_distance t.get_least_recently_updated_log_distance,
        pongs n = false) →
      (RoutingTableManager.pingCycle pongs db t).2.2 =
        (t.get_nodes_at_log_distance
          t.get_least_recently_updated_log_distance).reverse) := by
  have hcycle : RoutingTableManager.pingCycle pongs db t =
      RoutingTableManager.pingLoop pongs db t
        (t.get_nodes_at_log_distance t.get_least_recently_updated_log_distance).reverse := by
    simp [RoutingTableManager.pingCycle, h]
  have hc22 : (RoutingTableManager.pingCycle pongs db t).2.2 =
      ((t.get_nodes_at_log_distance
          t.get_least_recently_updated_log_distance).reverse).takeWhile
        (fun n => !pongs n) := by
    rw [hcycle, pingLoop_removed]
  have hc1 : (RoutingTableManager.pingCycle pongs db t).1 =
      (((t.get_nodes_at_log_distance
          t.get_least_recently_updated_log_distance).reverse).takeWhile
        (fun n => !pongs n)).foldl RoutingTable.remove t := by
    rw [hcycle, pingLoop_table]
  have hdisj : ∀ x ∈ ((t.get_nodes_at_log_distance
      t.get_least_recently_updated_log_distance).reverse).takeWhile
        (fun n => !pongs n), ¬ t.inReplacementCache x := by
    intro x hx
    have hxm : x ∈ t.get_nodes_at_log_distance
        t.get_least_recently_updated_log_distance :=
      List.mem_reverse.mp (List.Sublist.mem hx (List.takeWhile_sublist _))
    revert hxm
    unfold RoutingTable.get_nodes_at_log_distance
    cases hl : t.buckets.lookup t.get_least_recently_updated_log_distance with
    | none =>
        intro hxm
        cases hxm
    | some b =>
        intro hxm
        exact hwf (t.get_least_recently_updated_log_distance, b)
          (lookup_some_mem hl) x hxm
  refine ⟨hc22, ?_, ?_, ?_, ?_⟩
  · rw [hc22, hcycle, pingLoop_pinged]
  · intro x hx d
    rw [hc22] at hx
    rw [hc1]
    exact removed_not_mem_foldl_remove _ t hdisj x hx d
  · intro d x hx hnr
    rw [hc22] at hnr
    rw [hc1]
    exact mem_foldl_remove_of_not_removed _ t hx hnr
  · intro hall
    rw [hc22, List.takeWhile_eq_self_iff]
    intro n hn
    simp [hall n (List.mem_reverse.mp hn)]

/-- Witness for C5: bucket 255 holds members 3, 2, 1 (most-recent-first) with
replacement candidate 9; only node 2 answers pings, so one cycle removes
exactly the oldest member 1 (and the table is well formed: 9 is no member). -/
theorem ping_cycle_evicts_unresponsive_witness :
    RoutingTable.is_empty ⟨[(255, ⟨[3, 2, 1], [9]⟩)], 255⟩ = false ∧
    RoutingTable.WF ⟨[(255, ⟨[3, 2, 1], [9]⟩)], 255⟩ ∧
    (RoutingTableManager.pingCycle (fun n => n == 2) (fun _ => ⟨0, 0⟩)
        ⟨[(255, ⟨[3, 2, 1], [9]⟩)], 255⟩).2.2 = [1] := by
  have hwf : RoutingTable.WF ⟨[(255, ⟨[3, 2, 1], [9]⟩)], 255⟩ := by
    unfold RoutingTable.WF RoutingTable.inReplacementCache
    decide
  exact ⟨rfl, hwf,
    (ping_cycle_evicts_unresponsive (fun n => n == 2) (fun _ => ⟨0, 0⟩)
      ⟨[(255, ⟨[3, 2, 1], [9]⟩)], 255⟩ rfl hwf).1⟩

/-- Claim C6: the FIND_NODES responder answers a request of distance 0 with
exactly the local node, any other distance with exactly the bucket at that
log-distance paired with endpoints from the endpoint database, and always
echoes the request's `request_id` to the requesting node. -/
theorem handle_lookup_request_local_or_bucket (local_node : Node)
    (t : RoutingTable) (db : NodeID → Endpoint)
    (request : InboundMessage FindNodes) :
    (request.payload.distance = 0 →
      RoutingTableManager.handle_lookup_request local_node t db request =
        { node := request.node
          request_id := request.payload.request_id
          found_nodes := [local_node] }) ∧
    (request.payload.distance ≠ 0 →
      RoutingTableManager.handle_lookup_request local_node t db request =
        { node := request.node
          request_id := request.payload.request_id
          found_nodes := (t.get_nodes_at_log_distance request.payload.distance).map
            (fun nid => Node.mk nid (db nid)) }) := by
  constructor
  · intro h0
    simp [RoutingTableManager.handle_lookup_request, h0]
  · intro hne
    have hb : (request.payload.distance == 0) = false := by simpa using hne
    simp [RoutingTableManager.handle_lookup_request,
      RoutingTableManager.get_nodes_at_distance, hb]

/-- Witness for C6: against a table whose bucket 255 is [3, 2, 1], a
distance-0 request is answered with the local node alone and a distance-255
request with that bucket, both echoing their request ids. -/
theorem handle_lookup_request_local_or_bucket_witness :
    (RoutingTableManager.handle_lookup_request ⟨9, ⟨0, 0⟩⟩
        ⟨[(255, ⟨[3, 2, 1], []⟩)], 255⟩ (fun _ => ⟨0, 0⟩) ⟨⟨42, 0⟩, ⟨7, ⟨0, 0⟩⟩⟩ =
      { node := ⟨7, ⟨0, 0⟩⟩, request_id := 42, found_nodes := [⟨9, ⟨0, 0⟩⟩] }) ∧
    (RoutingTableManager.handle_lookup_request ⟨9, ⟨0, 0⟩⟩
        ⟨[(255, ⟨[3, 2, 1], []⟩)], 255⟩ (fun _ => ⟨0, 0⟩) ⟨⟨43, 255⟩, ⟨7, ⟨0, 0⟩⟩⟩ =
      { node := ⟨7, ⟨0, 0⟩⟩, request_id := 43,
        found_nodes := [⟨3, ⟨0, 0⟩⟩, ⟨2, ⟨0, 0⟩⟩, ⟨1, ⟨0, 0⟩⟩] }) :=
  ⟨(handle_lookup_request_local_or_bucket ⟨9, ⟨0, 0⟩⟩ ⟨[(255, ⟨[3, 2, 1], []⟩)], 255⟩
      (fun _ => ⟨0, 0⟩) ⟨⟨42, 0⟩, ⟨7, ⟨0, 0⟩⟩⟩).1 rfl,
   (handle_lookup_request_local_or_bucket ⟨9, ⟨0, 0⟩⟩ ⟨[(255, ⟨[3, 2, 1], []⟩)], 255⟩
      (fun _ => ⟨0, 0⟩) ⟨⟨43, 255⟩, ⟨7, ⟨0, 0⟩⟩⟩).2 (by decide)⟩

/-- Claim C7: the ping responder sends exactly one `Pong` per inbound `Ping`,
addressed to the pinging node and carrying the request id of that `Ping`. -/
theorem pong_when_pinged_echoes (requests : List (InboundMessage Ping)) :
    (RoutingTableManager.pong_when_pinged requests).length = requests.length ∧
    ∀ (i : Nat) (r : InboundMessage Ping), requests[i]? = some r →
      (RoutingTableManager.pong_when_pinged requests)[i]? =
        some (SentPong.mk r.node r.payload.request_id) := by
  refine ⟨List.length_map _ _, ?_⟩
  intro i r hr
  simp [RoutingTableManager.pong_when_pinged, List.getElem?_map, hr,
    RoutingTableManager.pong_reply]

/-- Witness for C7: one inbound ping with request id 77 from node 9 yields
exactly one pong to node 9 echoing 77. -/
theorem pong_when_pinged_echoes_witness :
    (RoutingTableManager.pong_when_pinged [⟨⟨77, 1⟩, ⟨9, ⟨0, 0⟩⟩⟩]).length = 1 ∧
    (RoutingTableManager.pong_when_pinged [⟨⟨77, 1⟩, ⟨9, ⟨0, 0⟩⟩⟩])[0]? =
      some { node := ⟨9, ⟨0, 0⟩⟩, request_id := 77 } :=
  ⟨(pong_when_pinged_echoes [⟨⟨77, 1⟩, ⟨9, ⟨0, 0⟩⟩⟩]).1,
   (pong_when_pinged_echoes [⟨⟨77, 1⟩, ⟨9, ⟨0, 0⟩⟩⟩]).2 0 ⟨⟨77, 1⟩, ⟨9, ⟨0, 0⟩⟩⟩ rfl⟩

/-- Claim C10: in an iteration during which the routing table is empty, the
lookup daemon performs no iterative lookup and verifies no node, and the
ping daemon pings nothing, removes nothing and leaves the table unchanged. -/
theorem daemons_skip_empty_table (t : RoutingTable) (pongs : NodeID → Bool)
    (db : NodeID → Endpoint) (target : NodeID) (found : List Node)
    (h : t.is_empty = true) :
    RoutingTableManager.lookupIteration t target found = [] ∧
    RoutingTableManager.pingCycle pongs db t = (t, [], []) := by
  constructor
  · simp [RoutingTableManager.lookupIteration, h]
  · simp [RoutingTableManager.pingCycle, h]

/-- Witness for C10: a table whose single bucket is empty makes both daemons
no-ops even when the modelled lookup would have found a node. -/
theorem daemons_skip_empty_table_witness :
    RoutingTable.is_empty ⟨[(1, ⟨[], []⟩)], 1⟩ = true ∧
    RoutingTableManager.lookupIteration ⟨[(1, ⟨[], []⟩)], 1⟩ 0 [⟨3, ⟨0, 0⟩⟩] = [] ∧
    RoutingTableManager.pingCycle (fun _ => true) (fun _ => ⟨0, 0⟩) ⟨[(1, ⟨[], []⟩)], 1⟩ =
      (⟨[(1, ⟨[], []⟩)], 1⟩, [], []) :=
  ⟨rfl,
   (daemons_skip_empty_table ⟨[(1, ⟨[], []⟩)], 1⟩ (fun _ => true) (fun _ => ⟨0, 0⟩)
      0 [⟨3, ⟨0, 0⟩⟩] rfl).1,
   (daemons_skip_empty_table ⟨[(1, ⟨[], []⟩)], 1⟩ (fun _ => true) (fun _ => ⟨0, 0⟩)
      0 [⟨3, ⟨0, 0⟩⟩] rfl).2⟩

end Alexandria
